import Mathlib

/-!
Verification of the forge-htmx fragment subsystem.

This file is a shallow embedding of the two source modules
forgehtmx/templatetags/htmx.py (the fragment tag compiler and
HTMXFragmentNode) and forgehtmx/views.py (the fragment locator
HTMXTemplateFragmentResponse and the HTMXViewMixin dispatcher),
together with the small pieces of the host template engine that the
source relies on (TextNode rendering, NodeList rendering and
get_nodes_by_type traversal, context construction).

Rendered strings are modelled as Lean String values; rendering of a
Django NodeList is the concatenation of the renders of its nodes, each
called with the default allow_lazy = true, exactly as NodeList.render
calls node.render(context) with no extra argument.
-/

namespace ForgeHTMX

/-- Context data: a RenderContext's variable scopes, modelled as a flat
association list from variable names to values.  The fragment code never
reads individual variables, so the representation is opaque to it. -/
abbrev Ctx := List (String × String)

/-- The evaluation context handed to every node render.  Django's Context
carries the variable data, the template object it is currently bound to
(via bind_template; modelled by the bound template's identity, its name)
and the template_name field that the locator assigns. -/
structure RenderContext where
  data : Ctx
  bound_template_name : Option String
  template_name : Option String

/-- Compiled template nodes, as the fragment subsystem sees them:
TextNode, HTMXFragmentNode (fragment_name, lazy flag and the child
nodelist passed to its constructor), ExtendsNode (whose own render
delegates to the external inheritance machinery, hence an opaque render
function, and which carries the extending template's nodelist as its
child nodelist), and any other node kind, which renders opaquely and
may carry child nodelists.  A node with several child nodelists (for
example ForNode's nodelist_loop and nodelist_empty) is represented by
the concatenation of those lists, which is exactly the order in which
get_nodes_by_type visits them. -/
inductive Node where
  | text (s : String) : Node
  | fragment (fragment_name : String) (lazy : Bool) (children : List Node) : Node
  | extendsNode (renderFun : RenderContext → String) (nodelist : List Node) : Node
  | other (renderFun : RenderContext → String) (child_nodes : List Node) : Node

/-- The opening wrapper tag emitted by HTMXFragmentNode.__init__ as the
first TextNode of its stored nodelist. -/
def fragmentOpenTag (fragment_name : String) : String :=
  "<div fhx-fragment=\"" ++ fragment_name ++
    "\" hx-swap=\"outerHTML\" hx-target=\"this\" hx-indicator=\"this\">"

/-- The placeholder emitted by HTMXFragmentNode.render when allow_lazy
and self.lazy both hold. -/
def lazyFragmentPlaceholder (fragment_name : String) : String :=
  "<div hx-get hx-trigger=\"fhxLoad from:body\" fhx-fragment=\"" ++ fragment_name ++
    "\" hx-swap=\"outerHTML\" hx-target=\"this\" hx-indicator=\"this\"></div>"

mutual

/-- HTMXFragmentNode.render(context, allow_lazy), together with the host
engine's TextNode.render (returns its text) and the opaque renders of
other node kinds.  The non-lazy branch returns self.nodelist.render,
where __init__ stored nodelist = [TextNode(open)] + children +
[TextNode(close)]; that NodeList renders to exactly the concatenation
below.  NodeList.render calls each node's render with the default
allow_lazy = true, so the allow_lazy argument applies only to this node. -/
def Node.render (context : RenderContext) (allow_lazy : Bool) : Node → String
  | .text s => s
  | .fragment fragment_name lz children =>
      if allow_lazy && lz then lazyFragmentPlaceholder fragment_name
      else fragmentOpenTag fragment_name ++ NodeList.render context children ++ "</div>"
  | .extendsNode renderFun _ => renderFun context
  | .other renderFun _ => renderFun context

/-- NodeList.render: concatenation of the renders of the nodes, each
invoked as node.render(context), i.e. with allow_lazy = true. -/
def NodeList.render (context : RenderContext) : List Node → String
  | [] => ""
  | n :: rest => Node.render context true n ++ NodeList.render context rest

end

mutual

/-- Node.get_nodes_by_type(HTMXFragmentNode): the node itself first when
it is a fragment, then the nodes found in its child nodelists, in order.
For a fragment node the stored nodelist is [TextNode(open)] + children +
[TextNode(close)]; the TextNodes contribute nothing, so the traversal of
the stored nodelist yields exactly the traversal of children. -/
def Node.get_fragment_nodes : Node → List Node
  | .text _ => []
  | .fragment fragment_name lz children =>
      Node.fragment fragment_name lz children :: NodeList.get_fragment_nodes children
  | .extendsNode _ nodelist => NodeList.get_fragment_nodes nodelist
  | .other _ child_nodes => NodeList.get_fragment_nodes child_nodes

/-- NodeList.get_nodes_by_type(HTMXFragmentNode): concatenation over the
nodes of the list. -/
def NodeList.get_fragment_nodes : List Node → List Node
  | [] => []
  | n :: rest => Node.get_fragment_nodes n ++ NodeList.get_fragment_nodes rest

end

/-- Reading node.fragment_name: defined exactly on HTMXFragmentNode. -/
def Node.fragment_name? : Node → Option String
  | .fragment fragment_name _ _ => some fragment_name
  | _ => none

/-- The test the locator loop applies to each collected node:
node.fragment_name == target_fragment_name. -/
def isNamed (target : String) (n : Node) : Bool :=
  n.fragment_name? == some target

/-- A compiled template as the locator sees it: the root nodelist of the
base template object, and its name (the template's identity). -/
structure Template where
  nodelist : List Node
  name : String

/-- make_context(context, request): a fresh RenderContext holding the
supplied data, not yet bound to any template. -/
def make_context (context_data : Ctx) : RenderContext :=
  { data := context_data, bound_template_name := none, template_name := none }

/-- context.bind_template(template_base): binds the context to the
original template object, modelled by recording its identity. -/
def RenderContext.bind_template (c : RenderContext) (t : Template) : RenderContext :=
  { c with bound_template_name := some t.name }

/-- The assignment context.template_name = template_base.name. -/
def RenderContext.set_template_name (c : RenderContext) (n : String) : RenderContext :=
  { c with template_name := some n }

/-- The inheritance unwrapping at the top of rendered_content: if the
root nodelist is exactly one ExtendsNode, the search space is that
node's own nodelist, otherwise the root nodelist itself. -/
def unwrap_nodelist (t : Template) : List Node :=
  match t.nodelist with
  | [Node.extendsNode _ nl] => nl
  | _ => t.nodelist

/-- The ValueError message raised when the fragment is not found. -/
def fragment_not_found_message (fragment_name template_name : String) : String :=
  "HTMX fragment " ++ fragment_name ++ " not found in template " ++ template_name

/-- HTMXTemplateFragmentResponse.rendered_content: unwrap a sole root
ExtendsNode, scan nodelist.get_nodes_by_type(HTMXFragmentNode) for the
first node whose fragment_name equals the requested name, and render it
with allow_lazy = false against a fresh context bound to the original
template; raise ValueError (modelled as Except.error) when no fragment
matches. -/
def rendered_content (t : Template) (htmx_fragment_name : String) (context_data : Ctx) :
    Except String String :=
  match (NodeList.get_fragment_nodes (unwrap_nodelist t)).find? (isNamed htmx_fragment_name) with
  | some node =>
      Except.ok (Node.render
        (((make_context context_data).bind_template t).set_template_name t.name) false node)
  | none =>
      Except.error (fragment_not_found_message htmx_fragment_name t.name)

/-! The htmxfragment tag compiler (templatetags/htmx.py). -/

/-- Characters removed by tokens[1].strip chars, namely the double and
single quote characters. -/
def quote_chars : List Char := ['"', Char.ofNat 39]

/-- Python str.strip with a character set: remove every leading and
every trailing character belonging to the set. -/
def strip_quotes (s : String) : String :=
  String.mk (((s.data.dropWhile (fun c => quote_chars.contains c)).reverse.dropWhile
    (fun c => quote_chars.contains c)).reverse)

/-- The htmxfragment tag compiler.  Its input is the token list produced
by token.split_contents (tokens[0] is the tag name itself) and the child
nodelist parsed up to endhtmxfragment; Python indexing tokens[i] is
modelled with getD, total because each branch only reads indexes the
length test guarantees.  Two tokens: the fragment name is tokens[1] with
surrounding quotes stripped and the node is not lazy.  Three tokens:
tokens[2] must be exactly the keyword lazy, otherwise
TemplateSyntaxError; the node is lazy.  Any other token count is a
TemplateSyntaxError naming tokens[0].  Errors are modelled as
Except.error of the message. -/
def htmxfragment (tokens : List String) (nodelist : List Node) : Except String Node :=
  let num_tokens := tokens.length
  if num_tokens == 2 then
    Except.ok (Node.fragment (strip_quotes (tokens.getD 1 "")) false nodelist)
  else if num_tokens == 3 then
    let lazy_token := tokens.getD 2 ""
    if lazy_token != "lazy" then
      Except.error ("The second argument to " ++ tokens.getD 0 "" ++
        " tag must be \x27lazy\x27 or removed")
    else
      Except.ok (Node.fragment (strip_quotes (tokens.getD 1 "")) true nodelist)
  else
    Except.error (tokens.getD 0 "" ++
      " tag requires a fragment name as single argument, or a fragment name and a lazy attribute")

/-! The HTMXViewMixin dispatcher (views.py). -/

/-- An inbound HTTP request: its method and its headers. -/
structure HTTPRequest where
  method : String
  headers : List (String × String)

/-- request.headers.get(key): first header with that name, if any. -/
def HTTPRequest.header (r : HTTPRequest) (key : String) : Option String :=
  (r.headers.find? (fun p => p.1 == key)).map Prod.snd

/-- is_htmx_request: the HX-Request header equals the string true. -/
def is_htmx_request (r : HTTPRequest) : Bool :=
  r.header "HX-Request" == some "true"

/-- htmx_fragment_name: the FHX-Fragment header, defaulting to "". -/
def request_fragment_name (r : HTTPRequest) : String :=
  (r.header "FHX-Fragment").getD ""

/-- htmx_action_name: the FHX-Action header, defaulting to "". -/
def htmx_action_name (r : HTTPRequest) : String :=
  (r.header "FHX-Action").getD ""

/-- A view using HTMXViewMixin: its configured htmx_template_name ("" =
unset, matching Python falsiness), its callable attributes (getattr by
name; none models a missing attribute, and present attributes are
callables, hence truthy), the inherited super().dispatch, and the
inherited super().get_template_names() result. -/
structure View where
  htmx_template_name : String
  methods : String → Option (HTTPRequest → List String → String)
  super_dispatch : HTTPRequest → List String → String
  super_get_template_names : List String

/-- Python str.lower, character by character.  The HTTP methods it is
applied to are ASCII, where this agrees with Python. -/
def str_lower (s : String) : String :=
  String.mk (s.data.map Char.toLower)

/-- HTMXViewMixin.dispatch: for an htmx request build the handler name
by prefixing the lowercased method, append the action name when
htmx_action_name is truthy (non-empty, the Python truthiness of a
string), look the name up with getattr, call the handler with the
request and the routing args when found, and otherwise (or for a
non-htmx request) fall through to super().dispatch. -/
def View.dispatch (v : View) (request : HTTPRequest) (args : List String) : String :=
  if is_htmx_request request then
    let method0 := "htmx_" ++ str_lower request.method
    let method1 :=
      if htmx_action_name request = "" then method0
      else method0 ++ "_" ++ htmx_action_name request
    match v.methods method1 with
    | some handler => handler request args
    | none => v.super_dispatch request args
  else
    v.super_dispatch request args

/-- The regex substitution re.sub of a final .html by _htmx.html, on the
character list of the name: when the name ends with .html, drop those
five characters and append _htmx.html; otherwise leave it unchanged. -/
def htmx_template_variant (template_name : String) : String :=
  if ".html".data.isSuffixOf template_name.data then
    String.mk (template_name.data.take (template_name.data.length - 5) ++ "_htmx.html".data)
  else
    template_name

/-- HTMXViewMixin.get_template_names: for an htmx request, a configured
htmx_template_name (truthy, i.e. non-empty) is the sole candidate;
otherwise every default name gets its _htmx variant first and the
defaults are kept as fallback.  Non-htmx requests use the defaults. -/
def View.get_template_names (v : View) (request : HTTPRequest) : List String :=
  if is_htmx_request request then
    if v.htmx_template_name ≠ "" then
      [v.htmx_template_name]
    else
      (v.super_get_template_names.map htmx_template_variant) ++ v.super_get_template_names
  else
    v.super_get_template_names

/-! Spec-side definitions, written from the specification's own words,
to be compared with the source-derived definitions above. -/

mutual

/-- Spec description of the locator search (section 4.2 step 2): walk
the search space recursively through all node kinds that can contain
children and collect every FragmentNode whose name equals the target, in
document order, depth-first and pre-order. -/
def Node.collect_named (target : String) : Node → List Node
  | .text _ => []
  | .fragment fragment_name lz children =>
      (if fragment_name == target then [Node.fragment fragment_name lz children] else []) ++
        NodeList.collect_named target children
  | .extendsNode _ nodelist => NodeList.collect_named target nodelist
  | .other _ child_nodes => NodeList.collect_named target child_nodes

/-- Spec-side pre-order collection over a node sequence. -/
def NodeList.collect_named (target : String) : List Node → List Node
  | [] => []
  | n :: rest => Node.collect_named target n ++ NodeList.collect_named target rest

end

/-- Spec description of renderFragment (section 4.2): unwrap a sole root
ExtendsNode, take the first pre-order FragmentNode named fragmentName,
render it in targeted mode against a RenderContext built from the
context data, bound to the original template and carrying its identity
as active template name; otherwise fail with FragmentNotFound carrying
the fragment name and the template identity. -/
def renderFragmentSpec (t : Template) (fragmentName : String) (contextData : Ctx) :
    Except String String :=
  match (NodeList.collect_named fragmentName (unwrap_nodelist t)).head? with
  | some nd =>
      Except.ok (Node.render
        { data := contextData, bound_template_name := some t.name,
          template_name := some t.name } false nd)
  | none =>
      Except.error (fragment_not_found_message fragmentName t.name)

/-- Spec description of the derived handler identifier: the fixed prefix
followed by the lowercased HTTP method, optionally suffixed with an
underscore and the action name when an action name is present. -/
def handler_method_name (request : HTTPRequest) : String :=
  "htmx_" ++ str_lower request.method ++
    (if htmx_action_name request = "" then "" else "_" ++ htmx_action_name request)

/-! State-passing renders, for the frame claim.  Each Python render
method is re-translated with its receiver threaded through explicitly:
the returned node is rebuilt from the nodes returned by the recursive
calls, so that the theorem that the returned tree equals the input tree
records that no statement of the source writes a node attribute. -/

mutual

/-- State-passing HTMXFragmentNode.render / TextNode.render / opaque
renders: returns the rendered string together with the node as left by
the call. -/
def Node.renderS (context : RenderContext) (allow_lazy : Bool) : Node → String × Node
  | .text s => (s, .text s)
  | .fragment fragment_name lz children =>
      if allow_lazy && lz then
        (lazyFragmentPlaceholder fragment_name, .fragment fragment_name lz children)
      else
        let p := NodeList.renderS context children
        (fragmentOpenTag fragment_name ++ p.1 ++ "</div>", .fragment fragment_name lz p.2)
  | .extendsNode renderFun nodelist => (renderFun context, .extendsNode renderFun nodelist)
  | .other renderFun child_nodes => (renderFun context, .other renderFun child_nodes)

/-- State-passing NodeList.render. -/
def NodeList.renderS (context : RenderContext) : List Node → String × List Node
  | [] => ("", [])
  | n :: rest =>
      let p := Node.renderS context true n
      let q := NodeList.renderS context rest
      (p.1 ++ q.1, p.2 :: q.2)

end

/-- State-passing rendered_content: threads the template through and
also returns the RenderContext that was constructed for the render, if
any, so the frame theorem can speak about both. -/
def rendered_contentS (t : Template) (htmx_fragment_name : String) (context_data : Ctx) :
    Except String String × Template × Option RenderContext :=
  match (NodeList.get_fragment_nodes (unwrap_nodelist t)).find? (isNamed htmx_fragment_name) with
  | some node =>
      let context := ((make_context context_data).bind_template t).set_template_name t.name
      let p := Node.renderS context false node
      (Except.ok p.1, t, some context)
  | none =>
      (Except.error (fragment_not_found_message htmx_fragment_name t.name), t, none)

/-! Helper lemmas. -/

theorem string_data_append (a b : String) : (a ++ b).data = a.data ++ b.data := rfl

theorem string_append_empty (a : String) : a ++ "" = a := by
  cases a with
  | mk d => show String.mk (d ++ []) = String.mk d; rw [List.append_nil]

theorem string_empty_append (a : String) : "" ++ a = a := by
  cases a with
  | mk d => rfl

theorem string_append_assoc (a b c : String) : a ++ b ++ c = a ++ (b ++ c) := by
  cases a with
  | mk x =>
    cases b with
    | mk y =>
      cases c with
      | mk z => show String.mk (x ++ y ++ z) = String.mk (x ++ (y ++ z)); rw [List.append_assoc]

theorem string_mk_data_append (a : String) (d : List Char) :
    String.mk (a.data ++ d) = a ++ String.mk d := by
  cases a with
  | mk x => rfl

/-- NodeList.render distributes over list concatenation. -/
theorem NodeList.render_append (context : RenderContext) (a b : List Node) :
    NodeList.render context (a ++ b) =
      NodeList.render context a ++ NodeList.render context b := by
  induction a with
  | nil => rw [List.nil_append, NodeList.render, string_empty_append]
  | cons n rest ih =>
      rw [List.cons_append, NodeList.render, NodeList.render, ih, string_append_assoc]

/-- Unfolding isNamed on a fragment node. -/
@[simp] theorem isNamed_fragment (target fragment_name : String) (lz : Bool)
    (children : List Node) :
    isNamed target (Node.fragment fragment_name lz children) = (fragment_name == target) := rfl

mutual

/-- The spec-side pre-order collection of fragments named target is the
name filter of get_nodes_by_type, node case. -/
theorem node_collect_named_eq_filter (target : String) :
    (n : Node) → Node.collect_named target n = (Node.get_fragment_nodes n).filter (isNamed target)
  | .text s => by
      simp [Node.collect_named, Node.get_fragment_nodes]
  | .fragment fragment_name lz children => by
      rw [Node.collect_named, Node.get_fragment_nodes, List.filter_cons,
        nodelist_collect_named_eq_filter target children, isNamed_fragment]
      by_cases h : fragment_name == target
      · simp [h]
      · simp [h]
  | .extendsNode renderFun nodelist => by
      rw [Node.collect_named, Node.get_fragment_nodes,
        nodelist_collect_named_eq_filter target nodelist]
  | .other renderFun child_nodes => by
      rw [Node.collect_named, Node.get_fragment_nodes,
        nodelist_collect_named_eq_filter target child_nodes]

/-- The spec-side pre-order collection of fragments named target is the
name filter of get_nodes_by_type, list case. -/
theorem nodelist_collect_named_eq_filter (target : String) :
    (ns : List Node) →
      NodeList.collect_named target ns =
        (NodeList.get_fragment_nodes ns).filter (isNamed target)
  | [] => by
      simp [NodeList.collect_named, NodeList.get_fragment_nodes]
  | n :: rest => by
      rw [NodeList.collect_named, NodeList.get_fragment_nodes, List.filter_append,
        node_collect_named_eq_filter target n, nodelist_collect_named_eq_filter target rest]

end

mutual

/-- The state-passing render returns its receiver unchanged, node case. -/
theorem node_renderS_snd (context : RenderContext) (allow_lazy : Bool) :
    (n : Node) → (Node.renderS context allow_lazy n).2 = n
  | .text s => rfl
  | .fragment fragment_name lz children => by
      rw [Node.renderS]
      by_cases h : allow_lazy && lz
      · simp [h]
      · simp [h, nodelist_renderS_snd context children]
  | .extendsNode renderFun nodelist => rfl
  | .other renderFun child_nodes => rfl

/-- The state-passing render returns its receiver unchanged, list case. -/
theorem nodelist_renderS_snd (context : RenderContext) :
    (ns : List Node) → (NodeList.renderS context ns).2 = ns
  | [] => rfl
  | n :: rest => by
      rw [NodeList.renderS]
      simp [node_renderS_snd context true n, nodelist_renderS_snd context rest]

end

mutual

/-- The state-passing render produces the same string as the pure
render, node case. -/
theorem node_renderS_fst (context : RenderContext) (allow_lazy : Bool) :
    (n : Node) → (Node.renderS context allow_lazy n).1 = Node.render context allow_lazy n
  | .text s => rfl
  | .fragment fragment_name lz children => by
      rw [Node.renderS, Node.render]
      by_cases h : allow_lazy && lz
      · simp [h]
      · simp [h, nodelist_renderS_fst context children]
  | .extendsNode renderFun nodelist => rfl
  | .other renderFun child_nodes => rfl

/-- The state-passing render produces the same string as the pure
render, list case. -/
theorem nodelist_renderS_fst (context : RenderContext) :
    (ns : List Node) → (NodeList.renderS context ns).1 = NodeList.render context ns
  | [] => rfl
  | n :: rest => by
      rw [NodeList.renderS, NodeList.render]
      simp [node_renderS_fst context true n, nodelist_renderS_fst context rest]

end

/-! Claim theorems. -/

set_option maxRecDepth 4000 in
/-- C1: for every FragmentNode, rendering in targeted mode (render with
allow_lazy = false) ignores the lazy flag entirely and returns exactly
the children wrapped in the three-marker container, identical to the
full non-deferred render, for every value of the lazy flag; the
container is the verbatim three-marker tag, which carries no
fetch-trigger attribute, as the closed instance at the end illustrates
on the rendered output of a lazy fragment. -/
theorem C1_targeted_render_ignores_lazy (context : RenderContext) (fragment_name : String)
    (lz : Bool) (children : List Node) :
    Node.render context false (Node.fragment fragment_name lz children)
      = Node.render context true (Node.fragment fragment_name false children)
    ∧ Node.render context false (Node.fragment fragment_name lz children)
      = fragmentOpenTag fragment_name ++ NodeList.render context children ++ "</div>"
    ∧ fragmentOpenTag fragment_name
      = "<div fhx-fragment=\"" ++ fragment_name ++
          "\" hx-swap=\"outerHTML\" hx-target=\"this\" hx-indicator=\"this\">"
    ∧ ¬ List.IsInfix "hx-trigger".data
        (Node.render { data := [], bound_template_name := none, template_name := none }
          false (Node.fragment "item" true [Node.text "Hello"])).data := by
  refine ⟨?_, ?_, rfl, ?_⟩
  · rw [Node.render, Node.render]
    simp
  · rw [Node.render]
    simp
  · decide

/-- C3: a full-page render (allow_lazy = true) of a deferred fragment
emits only the placeholder: the fragment's contribution to the page is
the verbatim placeholder tag carrying the fragment name, the three
stable markers and the fetch-on-trigger marker whose condition is the
fhxLoad signal scoped to the document body; the output is the same for
every child list, so the children's content does not appear and the
children are not rendered at all. -/
theorem C3_deferred_full_render_placeholder (context : RenderContext)
    (fragment_name : String) (children a b : List Node) :
    NodeList.render context (a ++ Node.fragment fragment_name true children :: b)
      = NodeList.render context a ++ lazyFragmentPlaceholder fragment_name ++
          NodeList.render context b
    ∧ Node.render context true (Node.fragment fragment_name true children)
      = lazyFragmentPlaceholder fragment_name
    ∧ (∀ children2 : List Node,
        Node.render context true (Node.fragment fragment_name true children)
          = Node.render context true (Node.fragment fragment_name true children2))
    ∧ lazyFragmentPlaceholder fragment_name
      = "<div hx-get hx-trigger=\"fhxLoad from:body\" fhx-fragment=\"" ++ fragment_name ++
          "\" hx-swap=\"outerHTML\" hx-target=\"this\" hx-indicator=\"this\"></div>" := by
  refine ⟨?_, rfl, fun _ => rfl, rfl⟩
  rw [NodeList.render_append, NodeList.render, Node.render]
  simp [string_append_assoc]

/-- C7: a full-page render of a template containing a non-deferred
fragment named N with child content C contains C exactly once, wrapped
in exactly one container that carries the fragment name and the three
stable marker attributes verbatim: the page output decomposes as the
surrounding content with a single occurrence of the wrapped child
render in between, and the container tag is reproduced verbatim. -/
theorem C7_full_render_wraps_children (context : RenderContext) (fragment_name : String)
    (children a b : List Node) :
    NodeList.render context (a ++ Node.fragment fragment_name false children :: b)
      = NodeList.render context a ++
          (fragmentOpenTag fragment_name ++ NodeList.render context children ++ "</div>") ++
          NodeList.render context b
    ∧ fragmentOpenTag fragment_name
      = "<div fhx-fragment=\"" ++ fragment_name ++
          "\" hx-swap=\"outerHTML\" hx-target=\"this\" hx-indicator=\"this\">" := by
  refine ⟨?_, rfl⟩
  rw [NodeList.render_append, NodeList.render, Node.render]
  simp [string_append_assoc]

/-- C10: in a targeted render of a fragment, the suppression of deferred
behaviour applies only to the matched node itself: a deferred fragment
nested among the children is rendered by NodeList.render with the
default allow_lazy = true and therefore emits its lazy placeholder; its
own children's content does not appear in the output, which is
independent of them. -/
theorem C10_nested_deferred_stays_lazy (context : RenderContext) (n : String) (lz : Bool)
    (a : List Node) (m : String) (children b : List Node) :
    Node.render context false (Node.fragment n lz (a ++ Node.fragment m true children :: b))
      = fragmentOpenTag n ++
          (NodeList.render context a ++ lazyFragmentPlaceholder m ++ NodeList.render context b)
          ++ "</div>" := by
  rw [Node.render]
  simp [NodeList.render_append, NodeList.render, Node.render, string_append_assoc]

/-- C2: the locator unwraps exactly one layer of layout inheritance
precisely when the root node sequence is one sole ExtendsNode, then
searches the space depth-first pre-order through all child-bearing node
kinds and renders the first FragmentNode in document order whose name
equals the requested one: rendered_content coincides with the
specification-side renderFragmentSpec, and unwrap_nodelist picks the
ExtendsNode's children exactly in the sole-ExtendsNode case. -/
theorem C2_locator_refines_spec (t : Template) (f : String) (c : Ctx) :
    rendered_content t f c = renderFragmentSpec t f c
    ∧ (∀ renderFun nl, t.nodelist = [Node.extendsNode renderFun nl] → unwrap_nodelist t = nl)
    ∧ ((∀ renderFun nl, t.nodelist ≠ [Node.extendsNode renderFun nl]) →
        unwrap_nodelist t = t.nodelist) := by
  refine ⟨?_, ?_, ?_⟩
  · unfold rendered_content renderFragmentSpec
    rw [nodelist_collect_named_eq_filter, List.filter_head?]
    rfl
  · intro renderFun nl h
    simp [unwrap_nodelist, h]
  · intro h
    rcases ht : t.nodelist with _ | ⟨n, rest⟩
    · simp [unwrap_nodelist, ht]
    · rcases n with s | ⟨nm, lz, ch⟩ | ⟨rf, nl⟩ | ⟨rf, ks⟩
      · simp [unwrap_nodelist, ht]
      · simp [unwrap_nodelist, ht]
      · rcases rest with _ | ⟨n2, rest2⟩
        · exact absurd ht (h rf nl)
        · simp [unwrap_nodelist, ht]
      · simp [unwrap_nodelist, ht]

/-- The opaque render of the base-extending ExtendsNode used in the
concrete examples. -/
def base_extends_render : RenderContext → String := fun _ => ""

/-- A concrete template wrapped in a sole ExtendsNode. -/
def demo_template : Template :=
  { nodelist :=
      [Node.extendsNode base_extends_render [Node.fragment "main" false [Node.text "X"]]],
    name := "page.html" }

/-- Witness for C2 at a concrete extending template. -/
theorem C2_locator_refines_spec_witness :
    rendered_content demo_template "main" [] = renderFragmentSpec demo_template "main" []
    ∧ unwrap_nodelist demo_template = [Node.fragment "main" false [Node.text "X"]] :=
  ⟨(C2_locator_refines_spec demo_template "main" []).1,
   (C2_locator_refines_spec demo_template "main" []).2.1 base_extends_render
     [Node.fragment "main" false [Node.text "X"]] rfl⟩

/-- C4: when no FragmentNode in the (possibly unwrapped) search space
carries the requested name, rendered_content fails with the ValueError
whose message carries both the requested fragment name and the
template's identity, and it never returns any string as a success. -/
theorem C4_fragment_not_found (t : Template) (f : String) (c : Ctx)
    (h : NodeList.collect_named f (unwrap_nodelist t) = []) :
    rendered_content t f c = Except.error (fragment_not_found_message f t.name)
    ∧ fragment_not_found_message f t.name
      = "HTMX fragment " ++ f ++ " not found in template " ++ t.name
    ∧ ∀ s, rendered_content t f c ≠ Except.ok s := by
  rw [nodelist_collect_named_eq_filter] at h
  have hfind : (NodeList.get_fragment_nodes (unwrap_nodelist t)).find? (isNamed f) = none := by
    rw [← List.filter_head?, h, List.head?_nil]
  refine ⟨?_, rfl, ?_⟩
  · unfold rendered_content
    rw [hfind]
  · intro s hs
    unfold rendered_content at hs
    rw [hfind] at hs
    exact Except.noConfusion hs

/-- A concrete template containing no fragment at all. -/
def text_only_template : Template := { nodelist := [Node.text "hi"], name := "base.html" }

/-- Witness for C4 at a concrete template without the fragment. -/
theorem C4_fragment_not_found_witness :
    rendered_content text_only_template "x" []
      = Except.error (fragment_not_found_message "x" "base.html")
    ∧ ∀ s, rendered_content text_only_template "x" [] ≠ Except.ok s :=
  ⟨(C4_fragment_not_found text_only_template "x" [] rfl).1,
   (C4_fragment_not_found text_only_template "x" [] rfl).2.2⟩

/-- C5 counterexample: the compiler performs no non-emptiness check on
the fragment name.  On the two-token input whose name token is a pair of
double quotes, stripping leaves the empty name and the compiler
succeeds instead of raising a compile-time error. -/
theorem C5_counterexample_empty_name_accepted :
    htmxfragment ["htmxfragment", "\"\""] [] = Except.ok (Node.fragment "" false [])
    ∧ strip_quotes "\"\"" = "" :=
  ⟨rfl, rfl⟩

/-- C5 as amended: the compiler takes the name token literally with
surrounding quote characters stripped, performing no non-emptiness
check; a three-token form whose last token is not exactly the keyword
lazy is a compile-time error naming the tag, as is any token count other
than two or three; the two admissible shapes succeed. -/
theorem C5_tag_compiler_amended (tokens : List String) (nodelist : List Node) :
    (tokens.length = 2 →
      htmxfragment tokens nodelist
        = Except.ok (Node.fragment (strip_quotes (tokens.getD 1 "")) false nodelist))
    ∧ (tokens.length = 3 → tokens.getD 2 "" = "lazy" →
      htmxfragment tokens nodelist
        = Except.ok (Node.fragment (strip_quotes (tokens.getD 1 "")) true nodelist))
    ∧ (tokens.length = 3 → tokens.getD 2 "" ≠ "lazy" →
      htmxfragment tokens nodelist
        = Except.error ("The second argument to " ++ tokens.getD 0 "" ++
            " tag must be \x27lazy\x27 or removed"))
    ∧ (tokens.length ≠ 2 → tokens.length ≠ 3 →
      htmxfragment tokens nodelist
        = Except.error (tokens.getD 0 "" ++
            " tag requires a fragment name as single argument, or a fragment name and a lazy attribute")) := by
  refine ⟨?_, ?_, ?_, ?_⟩
  · intro h
    simp [htmxfragment, h]
  · intro h h2
    rw [List.getD_eq_getElem?_getD] at h2
    simp [htmxfragment, h]
    rw [← h2, List.getElem?_eq_getElem]
    rfl
  · intro h h2
    rw [List.getD_eq_getElem?_getD] at h2
    simp [htmxfragment, h]
    exact fun hc => h2 (by rw [List.getElem?_eq_getElem, hc]; rfl)
  · intro h h2
    simp [htmxfragment, h, h2]

/-- Witness for the amended C5 at the three concrete input shapes. -/
theorem C5_tag_compiler_amended_witness :
    htmxfragment ["htmxfragment", "\"x\"", "lazy"] []
      = Except.ok (Node.fragment (strip_quotes "\"x\"") true [])
    ∧ htmxfragment ["htmxfragment", "\"x\"", "eager"] []
      = Except.error ("The second argument to htmxfragment tag must be \x27lazy\x27 or removed")
    ∧ htmxfragment ["htmxfragment"] []
      = Except.error
          ("htmxfragment tag requires a fragment name as single argument, or a fragment name and a lazy attribute") :=
  ⟨(C5_tag_compiler_amended ["htmxfragment", "\"x\"", "lazy"] []).2.1 rfl rfl,
   (C5_tag_compiler_amended ["htmxfragment", "\"x\"", "eager"] []).2.2.1 rfl
     (by decide),
   (C5_tag_compiler_amended ["htmxfragment"] []).2.2.2 (by decide) (by decide)⟩

/-- A view exposing a handler under the naming convention the claim
states, handle_get, and nothing else. -/
def handle_get_view : View :=
  { htmx_template_name := "",
    methods := fun s => if s == "handle_get" then some (fun _ _ => "HANDLED") else none,
    super_dispatch := fun _ _ => "DEFAULT",
    super_get_template_names := [] }

/-- A targeted GET request: the HX-Request header equals true and no
action header is present. -/
def targeted_get_request : HTTPRequest :=
  { method := "GET", headers := [("HX-Request", "true")] }

/-- C6 counterexample: dispatch does not derive the handler identifier
with the prefix the claim states.  A view exposing handle_get receives
the default dispatch on a targeted GET request: the view's handler is
present yet dispatch falls through, because the identifier the code
derives is htmx_get. -/
theorem C6_counterexample_handle_prefix :
    View.dispatch handle_get_view targeted_get_request [] = "DEFAULT"
    ∧ handle_get_view.methods "handle_get" = some (fun _ _ => "HANDLED")
    ∧ ("DEFAULT" : String) ≠ "HANDLED" :=
  ⟨rfl, rfl, by decide⟩

/-- C6 as amended: for a targeted request, dispatch derives the handler
identifier with the prefix htmx_ (not handle_) followed by the
lowercased HTTP method, suffixed with an underscore and the action name
when one is present; it looks the identifier up among the view's own
callables and invokes a found handler with the request and routing
arguments, and falls through to the default dispatch when the lookup
misses or the request is not targeted. -/
theorem C6_dispatch_amended (v : View) (request : HTTPRequest) (args : List String) :
    (is_htmx_request request = true →
      ∀ handler, v.methods (handler_method_name request) = some handler →
        v.dispatch request args = handler request args)
    ∧ (is_htmx_request request = true →
        v.methods (handler_method_name request) = none →
        v.dispatch request args = v.super_dispatch request args)
    ∧ (is_htmx_request request = false →
        v.dispatch request args = v.super_dispatch request args)
    ∧ handler_method_name request
      = "htmx_" ++ str_lower request.method ++
          (if htmx_action_name request = "" then "" else "_" ++ htmx_action_name request) := by
  have hname :
      (if htmx_action_name request = "" then "htmx_" ++ str_lower request.method
        else "htmx_" ++ str_lower request.method ++ "_" ++ htmx_action_name request)
        = handler_method_name request := by
    unfold handler_method_name
    by_cases h : htmx_action_name request = ""
    · rw [if_pos h, if_pos h, string_append_empty]
    · rw [if_neg h, if_neg h, string_append_assoc]
  refine ⟨?_, ?_, ?_, rfl⟩
  · intro h handler hm
    unfold View.dispatch
    rw [h]
    simp only [if_true]
    rw [hname, hm]
  · intro h hm
    unfold View.dispatch
    rw [h]
    simp only [if_true]
    rw [hname, hm]
  · intro h
    unfold View.dispatch
    rw [h]
    simp only [Bool.false_eq_true, if_false]

/-- A view exposing the handler under the convention the code uses. -/
def htmx_get_view : View :=
  { htmx_template_name := "",
    methods := fun s => if s == "htmx_get" then some (fun _ _ => "OK") else none,
    super_dispatch := fun _ _ => "DEFAULT",
    super_get_template_names := [] }

/-- Witness for the amended C6: the htmx_get handler is invoked on a
targeted GET request, and a view with no matching callable falls
through to the default dispatch. -/
theorem C6_dispatch_amended_witness :
    View.dispatch htmx_get_view targeted_get_request [] = "OK"
    ∧ View.dispatch handle_get_view targeted_get_request [] = "DEFAULT" :=
  ⟨(C6_dispatch_amended htmx_get_view targeted_get_request []).1 rfl (fun _ _ => "OK") rfl,
   (C6_dispatch_amended handle_get_view targeted_get_request []).2.1 rfl rfl⟩

/-- C8: for a targeted request without a per-view template override the
candidate list is, first, the _htmx variant of each default name in the
defaults' order, then all the original defaults as fallback; the
variant of a name with the .html extension inserts _htmx before the
extension; a configured override is the sole candidate; and a
non-targeted request returns the defaults unchanged. -/
theorem C8_template_name_selection (v : View) (request : HTTPRequest) :
    (is_htmx_request request = true → v.htmx_template_name = "" →
      v.get_template_names request
        = v.super_get_template_names.map htmx_template_variant ++ v.super_get_template_names)
    ∧ (is_htmx_request request = true → v.htmx_template_name ≠ "" →
      v.get_template_names request = [v.htmx_template_name])
    ∧ (is_htmx_request request = false →
      v.get_template_names request = v.super_get_template_names)
    ∧ (∀ base : String,
        htmx_template_variant (base ++ ".html") = base ++ "_htmx" ++ ".html") := by
  refine ⟨?_, ?_, ?_, ?_⟩
  · intro h h2
    unfold View.get_template_names
    rw [h]
    simp only [if_true]
    rw [if_neg (fun hc => hc h2)]
  · intro h h2
    unfold View.get_template_names
    rw [h]
    simp only [if_true]
    rw [if_pos h2]
  · intro h
    unfold View.get_template_names
    rw [h]
    simp only [Bool.false_eq_true, if_false]
  · intro base
    have hsfx : ".html".data <:+ (base ++ ".html").data := by
      rw [string_data_append]
      exact List.suffix_append _ _
    have hcond : ".html".data.isSuffixOf (base ++ ".html").data = true := by
      exact List.isSuffixOf_iff_suffix.mpr hsfx
    unfold htmx_template_variant
    rw [hcond]
    simp only [if_true]
    have h5 : (".html".data).length = 5 := rfl
    rw [string_data_append, List.length_append, h5, Nat.add_sub_cancel, List.take_left,
      string_mk_data_append, string_append_assoc]
    rfl

/-- A view with two default templates and no override. -/
def list_view : View :=
  { htmx_template_name := "",
    methods := fun _ => none,
    super_dispatch := fun _ _ => "DEFAULT",
    super_get_template_names := ["detail.html", "object_detail.html"] }

/-- Witness for C8 on a concrete targeted request: the _htmx variants
come first and the defaults remain as fallback. -/
theorem C8_template_name_selection_witness :
    View.get_template_names list_view targeted_get_request
      = ["detail.html", "object_detail.html"].map htmx_template_variant ++
          ["detail.html", "object_detail.html"]
    ∧ htmx_template_variant ("detail" ++ ".html") = "detail" ++ "_htmx" ++ ".html" :=
  ⟨(C8_template_name_selection list_view targeted_get_request).1 rfl rfl,
   (C8_template_name_selection list_view targeted_get_request).2.2.2 "detail"⟩

/-- C9: no render call writes any attribute of any node of the compiled
tree.  The state-passing translations of the render methods, in which
each receiver is threaded through explicitly, return the tree they were
given: a node render returns its node unchanged, a nodelist render
returns its list unchanged, the string produced agrees with the pure
render, the targeted locator returns the template it was given
unchanged, and the RenderContext it constructs for a found fragment is
a fresh one holding the context data and bound to the original
template's identity, with the active template name set to it. -/
theorem C9_render_mutates_nothing :
    (∀ (context : RenderContext) (allow_lazy : Bool) (n : Node),
      (Node.renderS context allow_lazy n).2 = n)
    ∧ (∀ (context : RenderContext) (ns : List Node), (NodeList.renderS context ns).2 = ns)
    ∧ (∀ (context : RenderContext) (allow_lazy : Bool) (n : Node),
      (Node.renderS context allow_lazy n).1 = Node.render context allow_lazy n)
    ∧ (∀ (t : Template) (f : String) (c : Ctx),
      rendered_contentS t f c
        = (rendered_content t f c, t,
            match (NodeList.get_fragment_nodes (unwrap_nodelist t)).find? (isNamed f) with
            | some _ => some (((make_context c).bind_template t).set_template_name t.name)
            | none => none))
    ∧ (∀ (c : Ctx) (t : Template),
      ((make_context c).bind_template t).set_template_name t.name
        = { data := c, bound_template_name := some t.name, template_name := some t.name }) := by
  refine ⟨node_renderS_snd, nodelist_renderS_snd, node_renderS_fst, ?_, fun c t => rfl⟩
  intro t f c
  unfold rendered_contentS rendered_content
  cases hfind : (NodeList.get_fragment_nodes (unwrap_nodelist t)).find? (isNamed f) with
  | some node => simp [hfind, node_renderS_fst]
  | none => simp [hfind]

end ForgeHTMX
